import Mathlib

/-!
Verification development for the option-scanner backend.

The embedding below translates the Express server in the repository
(the scan endpoint, its value-extraction helper, and the Alpha Vantage
client) into Lean definitions.  JavaScript numbers are modelled by
rationals, with a separate constructor for NaN where the code can
produce one; provider JSON payloads are modelled by association lists
with string keys.  All definitions are executable.
-/

/-- ASCII uppercase conversion of one character, the fragment of
JavaScript toUpperCase relevant to ticker symbols. -/
def charToUpper (c : Char) : Char :=
  if 'a' ≤ c && c ≤ 'z' then Char.ofNat (c.toNat - 32) else c

/-- ASCII lowercase conversion of one character, the fragment of
JavaScript toLowerCase relevant to setup-type names. -/
def charToLower (c : Char) : Char :=
  if 'A' ≤ c && c ≤ 'Z' then Char.ofNat (c.toNat + 32) else c

/-- String uppercase, mapping charToUpper over the characters. -/
def strToUpper (s : String) : String := ⟨s.data.map charToUpper⟩

/-- String lowercase, mapping charToLower over the characters. -/
def strToLower (s : String) : String := ⟨s.data.map charToLower⟩

/-- Whitespace as trimmed by JavaScript trim (ASCII fragment). -/
def isWs (c : Char) : Bool := c = ' ' || c = '\t' || c = '\n' || c = '\r'

/-- JavaScript String.prototype.trim: strip leading and trailing
whitespace. -/
def strTrim (s : String) : String :=
  ⟨((s.data.dropWhile isWs).reverse.dropWhile isWs).reverse⟩

/-- Accumulator pass of the comma split: cut the character list at
every comma, keeping empty segments, exactly as JavaScript split
does. -/
def splitCommaAux : List Char → List Char → List String
  | [], acc => [⟨acc.reverse⟩]
  | c :: cs, acc =>
    if c = ',' then ⟨acc.reverse⟩ :: splitCommaAux cs []
    else splitCommaAux cs (c :: acc)

/-- JavaScript split on a comma: "".split yields [""], "a,,b" yields
three segments. -/
def splitComma (s : String) : List String := splitCommaAux s.data []

/-- JavaScript String.prototype.startsWith, used by the key search in
getLatestIndicatorValue. -/
def strStartsWith (pfx s : String) : Bool := pfx.data.isPrefixOf s.data

/-- A JavaScript number as it flows through the scanner: either NaN
(produced by parseFloat on a missing field) or a genuine numeric value,
modelled as a rational. -/
inductive JsNum : Type
  | nan : JsNum
  | num (q : ℚ) : JsNum
deriving DecidableEq, Repr

/-- The record stored under one date key of an indicator time series.
Field values are numeric strings in the provider format; they are
modelled here by the rational that parseFloat would extract from them. -/
abbrev FieldRec := List (String × ℚ)

/-- An indicator time series: date-string keys mapped to records. -/
abbrev TimeSeries := List (String × FieldRec)

/-- A full indicator response object: top-level keys (such as
"Technical Analysis: EMA" or "Meta Data") mapped to time series. -/
abbrev IndicatorData := List (String × TimeSeries)

instance : DecidableEq TimeSeries :=
  inferInstanceAs (DecidableEq (List (String × FieldRec)))

instance : DecidableEq IndicatorData :=
  inferInstanceAs (DecidableEq (List (String × TimeSeries)))

/-- Property lookup on an association list, mirroring JavaScript object
access obj[k]: the value under the first matching key, none when the
key is absent. -/
def lookupA {α : Type} (l : List (String × α)) (k : String) : Option α :=
  (l.find? (fun kv => kv.1 = k)).map (fun kv => kv.2)

/-- Lexicographic comparison of character lists, the order JavaScript
uses to compare strings: compare code units position by position, a
strict prefix sorting before its extensions. -/
def charListLt : List Char → List Char → Bool
  | _, [] => false
  | [], _ :: _ => true
  | a :: as, b :: bs => a < b || (a = b && charListLt as bs)

/-- JavaScript string comparison a less-than b. -/
def strLt (a b : String) : Bool := charListLt a.data b.data

/-- The latest date key of a series.  The source computes
Object.keys(timeSeries).sort().reverse()[0], which on distinct keys is
the lexicographically maximal key; an empty key list yields undefined,
modelled as none. -/
def latestDateKey (ks : List String) : Option String :=
  match ks with
  | [] => none
  | k :: ks => some (ks.foldl (fun a b => if strLt a b then b else a) k)

/-- Translation of getLatestIndicatorValue from the server source.
The JavaScript finds the first top-level key starting with the given
prefix, takes the latest date of that series, and applies parseFloat to
the first field of that date record.  Returning none models returning
null.  Falsiness checks on the found key and the date translate to
emptiness checks on those strings; the series and record values
themselves are objects in this typed model, hence always truthy.  When
the latest record has no fields, Object.keys(record)[0] is undefined,
record[undefined] is undefined, and parseFloat(undefined) is NaN: the
function returns NaN, not null. -/
def getLatestIndicatorValue (data : IndicatorData) (pfx : String) : Option JsNum :=
  match data.find? (fun kv => strStartsWith pfx kv.1) with
  | none => none
  | some (k, ts) =>
    if k = "" then none
    else
      match latestDateKey (ts.map (fun kv => kv.1)) with
      | none => none
      | some d =>
        if d = "" then none
        else
          match lookupA ts d with
          | none => none
          | some rec =>
            match rec with
            | [] => some JsNum.nan
            | (_, v) :: _ => some (JsNum.num v)

/-- Strict less-than with JavaScript comparison semantics: any
comparison involving NaN is false. -/
def jlt : JsNum → JsNum → Bool
  | JsNum.num a, JsNum.num b => a < b
  | _, _ => false

/-- Non-strict comparison with JavaScript semantics: false on NaN. -/
def jle : JsNum → JsNum → Bool
  | JsNum.num a, JsNum.num b => a ≤ b
  | _, _ => false

/-- Greater-than with JavaScript semantics: false on NaN. -/
def jgt (a b : JsNum) : Bool := jlt b a

/-- Greater-or-equal with JavaScript semantics: false on NaN. -/
def jge (a b : JsNum) : Bool := jle b a

/-- One conjunct of the neutral trend test on genuine numbers:
Math.abs(x - avg) / avg < 0.01.  When avg is zero the JavaScript
division yields Infinity (positive numerator) or NaN (zero numerator),
and either compares false against 0.01, so the zero case is false. -/
def withinOnePct (x avg : ℚ) : Bool :=
  if avg = 0 then false else |x - avg| / avg < (1 / 100 : ℚ)

/-- Neutral trend condition on the three EMA values: each within 1% of
their mean.  Any NaN operand propagates through the arithmetic and
makes every comparison false. -/
def isNeutralTrend : JsNum → JsNum → JsNum → Bool
  | JsNum.num x, JsNum.num y, JsNum.num z =>
      let avgEma := (x + y + z) / 3
      withinOnePct x avgEma && withinOnePct y avgEma && withinOnePct z avgEma
  | _, _, _ => false

/-- The switch on setupType.toLowerCase() in the scan endpoint, applied
to the five extracted (non-null) values.  Returns none for the default
case (unrecognized setup type), otherwise the match flag. -/
def evalRule (setupLower : String) (ema10 ema20 ema50 rsi stochK : JsNum) : Option Bool :=
  if setupLower = "bullish" then
    some ((jgt ema10 ema20 && jgt ema20 ema50) &&
          (jge rsi (JsNum.num 55) && jle rsi (JsNum.num 80) && jgt stochK (JsNum.num 60)))
  else if setupLower = "bearish" then
    some ((jlt ema10 ema20 && jlt ema20 ema50) &&
          (jge rsi (JsNum.num 20) && jle rsi (JsNum.num 45) && jlt stochK (JsNum.num 40)))
  else if setupLower = "neutral" then
    some (isNeutralTrend ema10 ema20 ema50 &&
          (jge rsi (JsNum.num 45) && jle rsi (JsNum.num 65) &&
           jge stochK (JsNum.num 25) && jle stochK (JsNum.num 75)))
  else
    none

/-- Whether a setup-type string (already lowercased) hits one of the
three implemented switch cases. -/
def validSetup (setupLower : String) : Bool :=
  setupLower = "bullish" || setupLower = "bearish" || setupLower = "neutral"

deriving instance DecidableEq for Except

/-- Outcome of one indicator fetch for the scan: the provider data on
success, or the rejection message. -/
abbrev FetchOutcome := Except String IndicatorData

/-- The five per-symbol fetches issued by the scan endpoint. -/
structure SymbolFetches : Type where
  ema10 : FetchOutcome
  ema20 : FetchOutcome
  ema50 : FetchOutcome
  rsi : FetchOutcome
  stoch : FetchOutcome
deriving DecidableEq

/-- The rejection message of a fetch outcome, if any. -/
def fetchErr : FetchOutcome → Option String
  | Except.error m => some m
  | Except.ok _ => none

/-- The message Promise.all rejects with for the five per-symbol
fetches: the first rejection in array order (all handlers are attached
in order, so with settled outcomes the earliest rejected entry wins). -/
def firstFetchError (f : SymbolFetches) : Option String :=
  [f.ema10, f.ema20, f.ema50, f.rsi, f.stoch].findSome? fetchErr

/-- A row pushed into the results list for a matching symbol. -/
structure MatchEntry : Type where
  symbol : String
  ema10 : JsNum
  ema20 : JsNum
  ema50 : JsNum
  rsi : JsNum
  stochK : JsNum
deriving DecidableEq, Repr

/-- A row pushed into the errors list. -/
structure ScanError : Type where
  symbol : String
  message : String
deriving DecidableEq, Repr

/-- What one symbol task contributes to the response. -/
inductive SymbolOutcome : Type
  | matched (e : MatchEntry) : SymbolOutcome
  | errored (e : ScanError) : SymbolOutcome
  | skipped : SymbolOutcome
deriving DecidableEq, Repr

/-- One symbol task of the scan endpoint.  A rejection of any of the
five fetches rejects the joint await and is caught, recording the
symbol with the rejection message.  Otherwise the five latest values
are extracted; if any is null the task returns with no entry.  The
switch then either records a match row, nothing, or - in the default
case - the request-level sentinel error with symbol "N/A" and the raw
(non-lowercased) setup type in the message. -/
def processSymbol (setupType symbol : String) (f : SymbolFetches) : SymbolOutcome :=
  match f.ema10, f.ema20, f.ema50, f.rsi, f.stoch with
  | Except.ok d1, Except.ok d2, Except.ok d3, Except.ok d4, Except.ok d5 =>
    match getLatestIndicatorValue d1 "Technical Analysis: EMA",
          getLatestIndicatorValue d2 "Technical Analysis: EMA",
          getLatestIndicatorValue d3 "Technical Analysis: EMA",
          getLatestIndicatorValue d4 "Technical Analysis: RSI",
          getLatestIndicatorValue d5 "Technical Analysis: STOCH" with
    | some e10, some e20, some e50, some r, some k =>
      match evalRule (strToLower setupType) e10 e20 e50 r k with
      | none => SymbolOutcome.errored ⟨"N/A", "Invalid setupType: " ++ setupType⟩
      | some m =>
        if m then SymbolOutcome.matched ⟨symbol, e10, e20, e50, r, k⟩
        else SymbolOutcome.skipped
    | _, _, _, _, _ => SymbolOutcome.skipped
  | _, _, _, _, _ =>
    SymbolOutcome.errored ⟨symbol, (firstFetchError f).getD ""⟩

/-- The match row contributed by one symbol, if any. -/
def matchOf (setupType : String) (fetch : String → SymbolFetches) (s : String) :
    Option MatchEntry :=
  match processSymbol setupType s (fetch s) with
  | SymbolOutcome.matched e => some e
  | _ => none

/-- The error row contributed by one symbol, if any. -/
def errorOf (setupType : String) (fetch : String → SymbolFetches) (s : String) :
    Option ScanError :=
  match processSymbol setupType s (fetch s) with
  | SymbolOutcome.errored e => some e
  | _ => none

/-- The results list assembled across the symbol tasks. -/
def scanMatches (setupType : String) (fetch : String → SymbolFetches)
    (syms : List String) : List MatchEntry :=
  syms.filterMap (matchOf setupType fetch)

/-- The errors list assembled across the symbol tasks. -/
def scanErrors (setupType : String) (fetch : String → SymbolFetches)
    (syms : List String) : List ScanError :=
  syms.filterMap (errorOf setupType fetch)

/-- Parsing of the symbols query parameter:
symbols.split(',').map(s such that s.trim().toUpperCase()).filter(s). -/
def parseSymbols (s : String) : List String :=
  ((splitComma s).map (fun t => strToUpper (strTrim t))).filter (fun t => t ≠ "")

/-- The JSON response of GET /api/scan: the HTTP status, the error body
of the 400 branches, and the scanParameters/matches/errors body of the
200 branch.  The results field holds the list the source names results
and serializes under the matches key of the JSON body. -/
structure ScanResponse : Type where
  status : Nat
  error : Option String
  scanParameters : Option (List String × String)
  results : List MatchEntry
  errors : List ScanError
deriving DecidableEq, Repr

/-- The GET /api/scan handler.  The symbols query parameter is an
optional string (none when absent); a missing setupType defaults to
"bullish".  The provider is modelled by the fetch oracle giving each
symbol its five fetch outcomes; the oracle is consulted only on the 200
path. -/
def apiScan (symbolsQ setupTypeQ : Option String)
    (fetch : String → SymbolFetches) : ScanResponse :=
  let setupType := setupTypeQ.getD "bullish"
  match symbolsQ with
  | none =>
    ⟨400, some "Query parameter \"symbols\" (comma-separated) is required.", none, [], []⟩
  | some s =>
    if s = "" then
      ⟨400, some "Query parameter \"symbols\" (comma-separated) is required.", none, [], []⟩
    else
      let symbolList := parseSymbols s
      if symbolList = [] then
        ⟨400, some "No valid symbols provided.", none, [], []⟩
      else
        ⟨200, none, some (symbolList, setupType),
          scanMatches setupType fetch symbolList,
          scanErrors setupType fetch symbolList⟩

/-- Synthetic EMA response carrying one date with the given value. -/
def emaData (q : ℚ) : IndicatorData :=
  [("Technical Analysis: EMA", [("2024-01-03", [("EMA", q)])])]

/-- Synthetic RSI response carrying one date with the given value. -/
def rsiData (q : ℚ) : IndicatorData :=
  [("Technical Analysis: RSI", [("2024-01-03", [("RSI", q)])])]

/-- Synthetic STOCH response carrying one date whose first field is the
SlowK value. -/
def stochData (q : ℚ) : IndicatorData :=
  [("Technical Analysis: STOCH", [("2024-01-03", [("SlowK", q)])])]

/-- Five successful fetches with the given ema10, ema20, ema50, rsi and
stochK values. -/
def okFetches (a b c r k : ℚ) : SymbolFetches :=
  ⟨Except.ok (emaData a), Except.ok (emaData b), Except.ok (emaData c),
   Except.ok (rsiData r), Except.ok (stochData k)⟩

/-- Oracle for the bullish boundary tests: AAA sits exactly on the
rsi = 55 boundary, BBB just below it at 54.999. -/
def fetchBullishW : String → SymbolFetches := fun s =>
  if s = "AAA" then okFetches 12 11 10 55 70
  else okFetches 12 11 10 (54999 / 1000) 70

/-- Oracle for the bearish boundary test: AAA sits exactly on the
rsi = 20 boundary. -/
def fetchBearishW : String → SymbolFetches := fun s =>
  if s = "AAA" then okFetches 9 10 11 20 30
  else okFetches 9 10 11 (19999 / 1000) 30

/-- Oracle for the neutral test: the three EMAs of AAA are equal, so
each is trivially within one percent of their mean; BBB spreads its
EMAs too far apart. -/
def fetchNeutralW : String → SymbolFetches := fun s =>
  if s = "AAA" then okFetches 100 100 100 50 50
  else okFetches 100 120 80 50 50

/-- Oracle where symbol ERR fails its first EMA fetch and every other
symbol succeeds with bullish values. -/
def fetchErrW : String → SymbolFetches := fun s =>
  if s = "ERR" then
    ⟨Except.error "boom", Except.ok (emaData 11), Except.ok (emaData 10),
     Except.ok (rsiData 60), Except.ok (stochData 70)⟩
  else okFetches 12 11 10 60 70

/-- Five successful fetches whose RSI payload is an empty object, so
the extracted rsi value is null. -/
def nullRsiFetches : SymbolFetches :=
  ⟨Except.ok (emaData 12), Except.ok (emaData 11), Except.ok (emaData 10),
   Except.ok [], Except.ok (stochData 70)⟩

/-- Oracle for the sentinel-collision counterexample: the scanned
symbol N/A has a null rsi value, every other symbol has complete
bullish values. -/
def fetchNaW : String → SymbolFetches := fun s =>
  if s = "N/A" then nullRsiFetches
  else okFetches 12 11 10 60 70

/-- Oracle where every symbol succeeds with complete values. -/
def fetchAllGoodW : String → SymbolFetches := fun _ => okFetches 12 11 10 60 70

/-- Whether the five fetches of a symbol all succeeded and all five
latest-value extractions are non-null, i.e. the symbol reaches the
setup-type switch. -/
def extractsComplete (f : SymbolFetches) : Bool :=
  match f.ema10, f.ema20, f.ema50, f.rsi, f.stoch with
  | Except.ok d1, Except.ok d2, Except.ok d3, Except.ok d4, Except.ok d5 =>
    (getLatestIndicatorValue d1 "Technical Analysis: EMA").isSome &&
    (getLatestIndicatorValue d2 "Technical Analysis: EMA").isSome &&
    (getLatestIndicatorValue d3 "Technical Analysis: EMA").isSome &&
    (getLatestIndicatorValue d4 "Technical Analysis: RSI").isSome &&
    (getLatestIndicatorValue d5 "Technical Analysis: STOCH").isSome
  | _, _, _, _, _ => false

/-! Model of the Alpha Vantage client (alphaVantageService.js).  The
provider response body is a JSON object; only its top-level shape
matters to the client. -/

/-- A JSON value as seen by the Alpha Vantage client. -/
inductive JVal : Type
  | null : JVal
  | str (s : String) : JVal
  | num (q : ℚ) : JVal
  | obj (fields : List (String × JVal)) : JVal

/-- JavaScript truthiness of a JSON value: null and undefined are
falsy, the empty string and zero are falsy, objects are truthy. -/
def JVal.truthy : JVal → Bool
  | JVal.null => false
  | JVal.str s => s ≠ ""
  | JVal.num q => q ≠ 0
  | JVal.obj _ => true

/-- A JSON object, the type of response.data. -/
abbrev JObj := List (String × JVal)

/-- Property access response.data[k]: the value under the key, or
undefined (modelled as null, equally falsy) when the key is absent. -/
def jget (o : JObj) (k : String) : JVal :=
  match o.find? (fun kv => kv.1 = k) with
  | some kv => kv.2
  | none => JVal.null

/-- Stringification of a JSON value inside a template literal. -/
def JVal.display : JVal → String
  | JVal.null => "null"
  | JVal.str s => s
  | JVal.num q => toString q
  | JVal.obj _ => "[object Object]"

/-- Outcome of one client call: the resolved or rejected promise,
together with the advisory notes written to the log by console.warn. -/
structure FetchResult : Type where
  result : Except String JObj
  loggedNotes : List String

/-- Whether an outcome is a rejection. -/
def isErr : Except String JObj → Bool
  | Except.error _ => true
  | Except.ok _ => false

/-- Whether the configured credential is usable: the JavaScript check
is falsiness of API_KEY, so a missing or empty key fails. -/
def keyConfigured : Option String → Bool
  | none => false
  | some k => k ≠ ""

/-- Translation of fetchDailyTimeSeries from alphaVantageService.js:
reject eagerly when no API key or no symbol is given, otherwise issue
the network call (the response body is the resp argument), reject on a
truthy Error Message field, log a truthy Note advisory without
failing, reject when the Time Series (Daily) payload key is missing,
and otherwise resolve with the full response data. -/
def fetchDailyTimeSeries (apiKey : Option String) (symbol : String) (resp : JObj) :
    FetchResult :=
  if keyConfigured apiKey = false then
    ⟨Except.error "Alpha Vantage API key is missing.", []⟩
  else if symbol = "" then
    ⟨Except.error "Stock symbol is required.", []⟩
  else
    if (jget resp "Error Message").truthy then
      ⟨Except.error ("Alpha Vantage API Error: " ++ (jget resp "Error Message").display), []⟩
    else
      let notes := if (jget resp "Note").truthy then [(jget resp "Note").display] else []
      if (jget resp "Time Series (Daily)").truthy = false then
        ⟨Except.error ("No daily time series data found for symbol: " ++ symbol), notes⟩
      else
        ⟨Except.ok resp, notes⟩

/-- Modelled from the spec: the bodies of fetchEMA, fetchRSI and
fetchStoch are not under src (only fetchDailyTimeSeries is), and §4.1
gives every fetch operation the same contract — an eager
ConfigurationError when no credential is configured, a ProviderError
when the response carries an explicit error message field or lacks the
recognizable technical-analysis payload key of §6.1, and a logged,
non-fatal Note advisory otherwise, the call resolving with the data
present. -/
def fetchIndicator (payloadKey : String) (apiKey : Option String) (symbol : String)
    (resp : JObj) : FetchResult :=
  if keyConfigured apiKey = false then
    ⟨Except.error "Alpha Vantage API key is missing.", []⟩
  else
    if (jget resp "Error Message").truthy then
      ⟨Except.error ("Alpha Vantage API Error: " ++ (jget resp "Error Message").display), []⟩
    else
      let notes := if (jget resp "Note").truthy then [(jget resp "Note").display] else []
      if (jget resp payloadKey).truthy = false then
        ⟨Except.error ("No " ++ payloadKey ++ " data found for symbol: " ++ symbol), notes⟩
      else
        ⟨Except.ok resp, notes⟩

/-- Modelled from the spec: fetchEMA requests the EMA series and
unwraps the payload key of §6.1. -/
def fetchEMA : Option String → String → JObj → FetchResult :=
  fetchIndicator "Technical Analysis: EMA"

/-- Modelled from the spec: fetchRSI requests the RSI series. -/
def fetchRSI : Option String → String → JObj → FetchResult :=
  fetchIndicator "Technical Analysis: RSI"

/-- Modelled from the spec: fetchStoch requests the STOCH series. -/
def fetchStoch : Option String → String → JObj → FetchResult :=
  fetchIndicator "Technical Analysis: STOCH"

/-- The four fetch operations of the Indicator Client. -/
inductive FetchOp : Type
  | daily : FetchOp
  | ema : FetchOp
  | rsi : FetchOp
  | stoch : FetchOp

/-- The payload key each operation expects in a success response. -/
def payloadKeyOf : FetchOp → String
  | FetchOp.daily => "Time Series (Daily)"
  | FetchOp.ema => "Technical Analysis: EMA"
  | FetchOp.rsi => "Technical Analysis: RSI"
  | FetchOp.stoch => "Technical Analysis: STOCH"

/-- Dispatch to the four client operations. -/
def runFetch : FetchOp → Option String → String → JObj → FetchResult
  | FetchOp.daily => fetchDailyTimeSeries
  | FetchOp.ema => fetchEMA
  | FetchOp.rsi => fetchRSI
  | FetchOp.stoch => fetchStoch

/-- A healthy provider response carrying a rate-limit style advisory
next to the daily payload. -/
def respW : JObj :=
  [("Meta Data", JVal.obj []),
   ("Note", JVal.str "Thank you for using Alpha Vantage!"),
   ("Time Series (Daily)", JVal.obj [("2024-01-03", JVal.obj [])])]

/-! Helper lemmas about the scan pipeline. -/

theorem parseSymbols_empty : parseSymbols "" = [] := by decide

theorem evalRule_none_iff (sl : String) (a b c d e : JsNum) :
    evalRule sl a b c d e = none ↔ validSetup sl = false := by
  unfold evalRule validSetup
  split_ifs <;> simp [*]

theorem matchOf_eq_some (st : String) (fetch : String → SymbolFetches) (u : String)
    (e : MatchEntry) :
    matchOf st fetch u = some e ↔ processSymbol st u (fetch u) = SymbolOutcome.matched e := by
  unfold matchOf
  cases processSymbol st u (fetch u) <;> simp

theorem errorOf_eq_some (st : String) (fetch : String → SymbolFetches) (u : String)
    (e : ScanError) :
    errorOf st fetch u = some e ↔ processSymbol st u (fetch u) = SymbolOutcome.errored e := by
  unfold errorOf
  cases processSymbol st u (fetch u) <;> simp

theorem mem_scanMatches (st : String) (fetch : String → SymbolFetches) (l : List String)
    (e : MatchEntry) :
    e ∈ scanMatches st fetch l ↔
      ∃ u ∈ l, processSymbol st u (fetch u) = SymbolOutcome.matched e := by
  simp [scanMatches, List.mem_filterMap, matchOf_eq_some]

theorem mem_scanErrors (st : String) (fetch : String → SymbolFetches) (l : List String)
    (e : ScanError) :
    e ∈ scanErrors st fetch l ↔
      ∃ u ∈ l, processSymbol st u (fetch u) = SymbolOutcome.errored e := by
  simp [scanErrors, List.mem_filterMap, errorOf_eq_some]

theorem apiScan_ok (symbolsStr : String) (setupQ : Option String)
    (fetch : String → SymbolFetches) (hne : parseSymbols symbolsStr ≠ []) :
    apiScan (some symbolsStr) setupQ fetch =
      ⟨200, none, some (parseSymbols symbolsStr, setupQ.getD "bullish"),
       scanMatches (setupQ.getD "bullish") fetch (parseSymbols symbolsStr),
       scanErrors (setupQ.getD "bullish") fetch (parseSymbols symbolsStr)⟩ := by
  have hs : symbolsStr ≠ "" := by
    intro h
    rw [h] at hne
    exact hne parseSymbols_empty
  simp [apiScan, hs, hne]

theorem processSymbol_ok (st sym : String) (f : SymbolFetches)
    {d1 d2 d3 d4 d5 : IndicatorData} {v1 v2 v3 v4 v5 : Option JsNum}
    (hf : f = ⟨Except.ok d1, Except.ok d2, Except.ok d3, Except.ok d4, Except.ok d5⟩)
    (h1 : getLatestIndicatorValue d1 "Technical Analysis: EMA" = v1)
    (h2 : getLatestIndicatorValue d2 "Technical Analysis: EMA" = v2)
    (h3 : getLatestIndicatorValue d3 "Technical Analysis: EMA" = v3)
    (h4 : getLatestIndicatorValue d4 "Technical Analysis: RSI" = v4)
    (h5 : getLatestIndicatorValue d5 "Technical Analysis: STOCH" = v5) :
    processSymbol st sym f =
      match v1, v2, v3, v4, v5 with
      | some e10, some e20, some e50, some r, some k =>
        (match evalRule (strToLower st) e10 e20 e50 r k with
         | none => SymbolOutcome.errored ⟨"N/A", "Invalid setupType: " ++ st⟩
         | some m =>
           if m then SymbolOutcome.matched ⟨sym, e10, e20, e50, r, k⟩
           else SymbolOutcome.skipped)
      | _, _, _, _, _ => SymbolOutcome.skipped := by
  subst hf
  simp only [processSymbol, h1, h2, h3, h4, h5]
  cases v1 <;> cases v2 <;> cases v3 <;> cases v4 <;> cases v5 <;> rfl

theorem processSymbol_fetch_error (st sym : String) (f : SymbolFetches) (m : String)
    (he : firstFetchError f = some m) :
    processSymbol st sym f = SymbolOutcome.errored ⟨sym, m⟩ := by
  obtain ⟨f1, f2, f3, f4, f5⟩ := f
  cases f1 <;> cases f2 <;> cases f3 <;> cases f4 <;> cases f5 <;>
    simp_all [processSymbol, firstFetchError, fetchErr, List.findSome?]

theorem fetches_ok_of_no_error (f : SymbolFetches) (h : firstFetchError f = none) :
    ∃ d1 d2 d3 d4 d5, f =
      ⟨Except.ok d1, Except.ok d2, Except.ok d3, Except.ok d4, Except.ok d5⟩ := by
  obtain ⟨f1, f2, f3, f4, f5⟩ := f
  cases f1 <;> cases f2 <;> cases f3 <;> cases f4 <;> cases f5 <;>
    first
      | exact ⟨_, _, _, _, _, rfl⟩
      | simp_all [firstFetchError, fetchErr, List.findSome?]

theorem processSymbol_matched (st sym : String) (f : SymbolFetches) (e : MatchEntry)
    (h : processSymbol st sym f = SymbolOutcome.matched e) :
    e.symbol = sym ∧ validSetup (strToLower st) = true := by
  unfold processSymbol at h
  split at h
  · split at h
    · rename_i heq
      split at h
      · exact absurd h (by simp)
      · rename_i m hm
        split at h
        · cases h
          refine ⟨rfl, ?_⟩
          cases hv : validSetup (strToLower st)
          · rw [(evalRule_none_iff _ _ _ _ _ _).mpr hv] at hm
            cases hm
          · rfl
        · exact absurd h (by simp)
    · exact absurd h (by simp)
  · exact absurd h (by simp)

theorem processSymbol_errored (st sym : String) (f : SymbolFetches) (e : ScanError)
    (h : processSymbol st sym f = SymbolOutcome.errored e) :
    e.symbol = sym ∨ (e.symbol = "N/A" ∧ validSetup (strToLower st) = false) := by
  unfold processSymbol at h
  split at h
  · split at h
    · rename_i heq
      split at h
      · rename_i hm
        cases h
        exact Or.inr ⟨rfl, (evalRule_none_iff _ _ _ _ _ _).mp hm⟩
      · split at h
        · exact absurd h (by simp)
        · exact absurd h (by simp)
    · exact absurd h (by simp)
  · cases h
    exact Or.inl rfl

theorem charListLt_irrefl : ∀ l : List Char, charListLt l l = false := by
  intro l
  induction l with
  | nil => rfl
  | cons x xs ih => simp [charListLt, ih]

theorem charListLt_trans : ∀ a b c : List Char,
    charListLt a b = true → charListLt b c = true → charListLt a c = true := by
  intro a
  induction a with
  | nil =>
    intro b c hab hbc
    cases c with
    | nil => cases b <;> simp [charListLt] at hab hbc
    | cons z zs => simp [charListLt]
  | cons x xs ih =>
    intro b c hab hbc
    cases b with
    | nil => simp [charListLt] at hab
    | cons y ys =>
      cases c with
      | nil => simp [charListLt] at hbc
      | cons z zs =>
        simp only [charListLt, Bool.or_eq_true, Bool.and_eq_true,
          decide_eq_true_eq] at hab hbc ⊢
        rcases hab with h1 | ⟨he1, h1⟩
        · rcases hbc with h2 | ⟨he2, h2⟩
          · exact Or.inl (lt_trans h1 h2)
          · exact Or.inl (he2 ▸ h1)
        · rcases hbc with h2 | ⟨he2, h2⟩
          · exact Or.inl (he1 ▸ h2)
          · exact Or.inr ⟨he1.trans he2, ih ys zs h1 h2⟩

theorem charListLt_false_trans : ∀ a b c : List Char,
    charListLt a b = false → charListLt b c = false → charListLt a c = false := by
  intro a
  induction a with
  | nil =>
    intro b c hab hbc
    cases c with
    | nil => rfl
    | cons z zs =>
      cases b with
      | nil => simp [charListLt] at hbc
      | cons y ys => simp [charListLt] at hab
  | cons x xs ih =>
    intro b c hab hbc
    cases c with
    | nil => rfl
    | cons z zs =>
      cases b with
      | nil => simp [charListLt] at hbc
      | cons y ys =>
        simp only [charListLt, Bool.or_eq_false_iff, Bool.and_eq_false_iff,
          decide_eq_false_iff_not] at hab hbc ⊢
        obtain ⟨hxy, hab2⟩ := hab
        obtain ⟨hyz, hbc2⟩ := hbc
        have hyx : y ≤ x := le_of_not_lt hxy
        have hzy : z ≤ y := le_of_not_lt hyz
        refine ⟨fun hxz => absurd (lt_of_lt_of_le hxz hzy) hxy, ?_⟩
        by_cases hxz : x = z
        case neg => exact Or.inl hxz
        have hxley : x ≤ y := by rw [hxz]; exact hzy
        have hxy2 : x = y := le_antisymm hxley hyx
        have hyz2 : y = z := le_antisymm (hxz ▸ hyx) hzy
        have hys : charListLt xs ys = false := by
          rcases hab2 with h | h
          · exact absurd hxy2 h
          · exact h
        have hzs : charListLt ys zs = false := by
          rcases hbc2 with h | h
          · exact absurd hyz2 h
          · exact h
        exact Or.inr (ih ys zs hys hzs)

theorem strLt_irrefl (s : String) : strLt s s = false :=
  charListLt_irrefl s.data

theorem strLt_trans {a b c : String} (h1 : strLt a b = true) (h2 : strLt b c = true) :
    strLt a c = true :=
  charListLt_trans a.data b.data c.data h1 h2

theorem strLt_false_trans {a b c : String} (h1 : strLt a b = false)
    (h2 : strLt b c = false) : strLt a c = false :=
  charListLt_false_trans a.data b.data c.data h1 h2

theorem foldl_latest_spec (k : String) (ks : List String) :
    ks.foldl (fun a b => if strLt a b then b else a) k ∈ k :: ks ∧
    ∀ x ∈ k :: ks, strLt (ks.foldl (fun a b => if strLt a b then b else a) k) x = false := by
  induction ks generalizing k with
  | nil =>
    refine ⟨List.mem_singleton_self k, ?_⟩
    intro x hx
    rw [List.mem_singleton] at hx
    rw [hx]
    exact strLt_irrefl k
  | cons b bs ih =>
    simp only [List.foldl_cons]
    obtain ⟨hmem, hbound⟩ := ih (if strLt k b then b else k)
    refine ⟨?_, ?_⟩
    · rcases List.mem_cons.mp hmem with h | h
      · rw [h]
        split
        · exact List.mem_cons_of_mem _ (List.mem_cons_self _ _)
        · exact List.mem_cons_self _ _
      · exact List.mem_cons_of_mem _ (List.mem_cons_of_mem _ h)
    · intro x hx
      by_cases hkb : strLt k b = true
      · simp only [if_pos hkb] at hbound ⊢
        have h0 : strLt (bs.foldl (fun a b => if strLt a b then b else a) b) b = false :=
          hbound _ (List.mem_cons_self _ _)
        rcases List.mem_cons.mp hx with hxk | hx2
        · rw [hxk]
          cases hmk : strLt (bs.foldl (fun a b => if strLt a b then b else a) b) k with
          | false => rfl
          | true =>
            have hmb := strLt_trans hmk hkb
            rw [hmb] at h0
            cases h0
        · rcases List.mem_cons.mp hx2 with hxb | hxbs
          · rw [hxb]
            exact h0
          · exact hbound x (List.mem_cons_of_mem _ hxbs)
      · simp only [if_neg hkb] at hbound ⊢
        have h0 : strLt (bs.foldl (fun a b => if strLt a b then b else a) k) k = false :=
          hbound _ (List.mem_cons_self _ _)
        have hkb2 : strLt k b = false := Bool.eq_false_iff.mpr hkb
        rcases List.mem_cons.mp hx with hxk | hx2
        · rw [hxk]
          exact h0
        · rcases List.mem_cons.mp hx2 with hxb | hxbs
          · rw [hxb]
            exact strLt_false_trans h0 hkb2
          · exact hbound x (List.mem_cons_of_mem _ hxbs)

theorem latestDateKey_max (ks : List String) (d : String)
    (h : latestDateKey ks = some d) : d ∈ ks ∧ ∀ x ∈ ks, strLt d x = false := by
  cases ks with
  | nil => cases h
  | cons k ks =>
    have h2 := foldl_latest_spec k ks
    have hd : ks.foldl (fun a b => if strLt a b then b else a) k = d := by
      injection h
    rw [← hd]
    exact h2

theorem filterMap_if_replicate {α β : Type} (p : α → Bool) (c : β) (l : List α) :
    l.filterMap (fun a => if p a then some c else none) =
      List.replicate (l.countP p) c := by
  induction l with
  | nil => rfl
  | cons x xs ih =>
    cases hp : p x <;>
      simp [List.filterMap_cons, List.countP_cons, hp, ih, List.replicate_succ]

theorem getLatest_emaData (q : ℚ) :
    getLatestIndicatorValue (emaData q) "Technical Analysis: EMA" = some (JsNum.num q) := rfl

theorem getLatest_rsiData (q : ℚ) :
    getLatestIndicatorValue (rsiData q) "Technical Analysis: RSI" = some (JsNum.num q) := rfl

theorem getLatest_stochData (q : ℚ) :
    getLatestIndicatorValue (stochData q) "Technical Analysis: STOCH" = some (JsNum.num q) := rfl

theorem apiScan_results (symbolsStr : String) (setupQ : Option String)
    (fetch : String → SymbolFetches) (hne : parseSymbols symbolsStr ≠ []) :
    (apiScan (some symbolsStr) setupQ fetch).results =
      scanMatches (setupQ.getD "bullish") fetch (parseSymbols symbolsStr) := by
  rw [apiScan_ok _ _ _ hne]

theorem apiScan_errs (symbolsStr : String) (setupQ : Option String)
    (fetch : String → SymbolFetches) (hne : parseSymbols symbolsStr ≠ []) :
    (apiScan (some symbolsStr) setupQ fetch).errors =
      scanErrors (setupQ.getD "bullish") fetch (parseSymbols symbolsStr) := by
  rw [apiScan_ok _ _ _ hne]

/-- C1: for setupType bullish, a symbol whose five extracted values are
genuine numbers is included in matches exactly when ema10 > ema20 > ema50,
55 <= rsi <= 80 and stochK > 60, with exact boundaries, and the match row
carries the symbol together with its five computed values. -/
theorem bullish_rule_exact (symbolsStr : String) (fetch : String → SymbolFetches)
    (s : String) {d1 d2 d3 d4 d5 : IndicatorData} {e10 e20 e50 r k : ℚ}
    (hs : s ∈ parseSymbols symbolsStr)
    (hf : fetch s = ⟨Except.ok d1, Except.ok d2, Except.ok d3, Except.ok d4, Except.ok d5⟩)
    (h1 : getLatestIndicatorValue d1 "Technical Analysis: EMA" = some (JsNum.num e10))
    (h2 : getLatestIndicatorValue d2 "Technical Analysis: EMA" = some (JsNum.num e20))
    (h3 : getLatestIndicatorValue d3 "Technical Analysis: EMA" = some (JsNum.num e50))
    (h4 : getLatestIndicatorValue d4 "Technical Analysis: RSI" = some (JsNum.num r))
    (h5 : getLatestIndicatorValue d5 "Technical Analysis: STOCH" = some (JsNum.num k)) :
    MatchEntry.mk s (JsNum.num e10) (JsNum.num e20) (JsNum.num e50) (JsNum.num r) (JsNum.num k)
        ∈ (apiScan (some symbolsStr) (some "bullish") fetch).results ↔
      e10 > e20 ∧ e20 > e50 ∧ 55 ≤ r ∧ r ≤ 80 ∧ k > 60 := by
  have hne : parseSymbols symbolsStr ≠ [] := by
    intro h
    rw [h] at hs
    exact absurd hs (List.not_mem_nil _)
  have hlow : strToLower "bullish" = "bullish" := by decide
  rw [apiScan_results _ _ _ hne, Option.getD_some, mem_scanMatches]
  constructor
  · rintro ⟨u, hu, hm⟩
    have hsym := (processSymbol_matched _ _ _ _ hm).1
    have hus : u = s := by simpa using hsym.symm
    subst hus
    rw [processSymbol_ok "bullish" u (fetch u) hf h1 h2 h3 h4 h5] at hm
    simp only [hlow] at hm
    simp [evalRule, jgt, jlt, jge, jle] at hm
    exact ⟨hm.1, hm.2.1, hm.2.2.1, hm.2.2.2.1, hm.2.2.2.2⟩
  · rintro ⟨hA, hB, hC, hD, hE⟩
    refine ⟨s, hs, ?_⟩
    rw [processSymbol_ok "bullish" s (fetch s) hf h1 h2 h3 h4 h5]
    simp only [hlow]
    simp [evalRule, jgt, jlt, jge, jle, hA, hB, hC, hD, hE]

/-- C1 witness: with bullish values 12, 11, 10, rsi on the exact 55
boundary and stochK 70, symbol AAA is matched with its five values,
while BBB with rsi 54.999 is excluded. -/
theorem bullish_rule_exact_witness :
    MatchEntry.mk "AAA" (JsNum.num 12) (JsNum.num 11) (JsNum.num 10) (JsNum.num 55)
        (JsNum.num 70) ∈
      (apiScan (some "AAA,BBB") (some "bullish") fetchBullishW).results ∧
    MatchEntry.mk "BBB" (JsNum.num 12) (JsNum.num 11) (JsNum.num 10)
        (JsNum.num (54999 / 1000)) (JsNum.num 70) ∉
      (apiScan (some "AAA,BBB") (some "bullish") fetchBullishW).results := by
  constructor
  · exact (@bullish_rule_exact "AAA,BBB" fetchBullishW "AAA"
      (emaData 12) (emaData 11) (emaData 10) (rsiData 55) (stochData 70)
      12 11 10 55 70
      (by decide) rfl (getLatest_emaData 12) (getLatest_emaData 11) (getLatest_emaData 10)
      (getLatest_rsiData 55) (getLatest_stochData 70)).mpr (by norm_num)
  · intro hmem
    have h := (@bullish_rule_exact "AAA,BBB" fetchBullishW "BBB"
      (emaData 12) (emaData 11) (emaData 10) (rsiData (54999 / 1000)) (stochData 70)
      12 11 10 (54999 / 1000) 70
      (by decide) rfl (getLatest_emaData 12) (getLatest_emaData 11) (getLatest_emaData 10)
      (getLatest_rsiData (54999 / 1000)) (getLatest_stochData 70)).mp hmem
    norm_num at h

/-- C7: for setupType bearish, a symbol whose five extracted values are
genuine numbers is included in matches exactly when ema10 < ema20 < ema50,
20 <= rsi <= 45 and stochK < 40, with the boundaries exact as written. -/
theorem bearish_rule_exact (symbolsStr : String) (fetch : String → SymbolFetches)
    (s : String) {d1 d2 d3 d4 d5 : IndicatorData} {e10 e20 e50 r k : ℚ}
    (hs : s ∈ parseSymbols symbolsStr)
    (hf : fetch s = ⟨Except.ok d1, Except.ok d2, Except.ok d3, Except.ok d4, Except.ok d5⟩)
    (h1 : getLatestIndicatorValue d1 "Technical Analysis: EMA" = some (JsNum.num e10))
    (h2 : getLatestIndicatorValue d2 "Technical Analysis: EMA" = some (JsNum.num e20))
    (h3 : getLatestIndicatorValue d3 "Technical Analysis: EMA" = some (JsNum.num e50))
    (h4 : getLatestIndicatorValue d4 "Technical Analysis: RSI" = some (JsNum.num r))
    (h5 : getLatestIndicatorValue d5 "Technical Analysis: STOCH" = some (JsNum.num k)) :
    MatchEntry.mk s (JsNum.num e10) (JsNum.num e20) (JsNum.num e50) (JsNum.num r) (JsNum.num k)
        ∈ (apiScan (some symbolsStr) (some "bearish") fetch).results ↔
      e10 < e20 ∧ e20 < e50 ∧ 20 ≤ r ∧ r ≤ 45 ∧ k < 40 := by
  have hne : parseSymbols symbolsStr ≠ [] := by
    intro h
    rw [h] at hs
    exact absurd hs (List.not_mem_nil _)
  have hlow : strToLower "bearish" = "bearish" := by decide
  rw [apiScan_results _ _ _ hne, Option.getD_some, mem_scanMatches]
  constructor
  · rintro ⟨u, hu, hpm⟩
    have hsym := (processSymbol_matched _ _ _ _ hpm).1
    have hus : u = s := by simpa using hsym.symm
    subst hus
    rw [processSymbol_ok "bearish" u (fetch u) hf h1 h2 h3 h4 h5] at hpm
    simp only [hlow] at hpm
    simp [evalRule, jgt, jlt, jge, jle] at hpm
    exact ⟨hpm.1, hpm.2.1, hpm.2.2.1, hpm.2.2.2.1, hpm.2.2.2.2⟩
  · rintro ⟨hA, hB, hC, hD, hE⟩
    refine ⟨s, hs, ?_⟩
    rw [processSymbol_ok "bearish" s (fetch s) hf h1 h2 h3 h4 h5]
    simp only [hlow]
    simp [evalRule, jgt, jlt, jge, jle, hA, hB, hC, hD, hE]

/-- C7 witness: with EMAs 9 < 10 < 11, rsi on the exact 20 boundary
and stochK 30, symbol AAA is matched; BBB with rsi 19.999 is
excluded. -/
theorem bearish_rule_exact_witness :
    MatchEntry.mk "AAA" (JsNum.num 9) (JsNum.num 10) (JsNum.num 11) (JsNum.num 20)
        (JsNum.num 30) ∈
      (apiScan (some "AAA,BBB") (some "bearish") fetchBearishW).results ∧
    MatchEntry.mk "BBB" (JsNum.num 9) (JsNum.num 10) (JsNum.num 11)
        (JsNum.num (19999 / 1000)) (JsNum.num 30) ∉
      (apiScan (some "AAA,BBB") (some "bearish") fetchBearishW).results := by
  constructor
  · exact (@bearish_rule_exact "AAA,BBB" fetchBearishW "AAA"
      (emaData 9) (emaData 10) (emaData 11) (rsiData 20) (stochData 30)
      9 10 11 20 30
      (by decide) rfl (getLatest_emaData 9) (getLatest_emaData 10) (getLatest_emaData 11)
      (getLatest_rsiData 20) (getLatest_stochData 30)).mpr (by norm_num)
  · intro hmem
    have h := (@bearish_rule_exact "AAA,BBB" fetchBearishW "BBB"
      (emaData 9) (emaData 10) (emaData 11) (rsiData (19999 / 1000)) (stochData 30)
      9 10 11 (19999 / 1000) 30
      (by decide) rfl (getLatest_emaData 9) (getLatest_emaData 10) (getLatest_emaData 11)
      (getLatest_rsiData (19999 / 1000)) (getLatest_stochData 30)).mp hmem
    norm_num at h

/-- C8: for setupType neutral, a symbol whose five extracted values are
genuine numbers is included in matches exactly when each EMA satisfies
abs(emaX - mean) / mean < 0.01 for their arithmetic mean, 45 <= rsi <= 65
and 25 <= stochK <= 75.  The mean is assumed nonzero, the condition being
undefined otherwise. -/
theorem neutral_rule_exact (symbolsStr : String) (fetch : String → SymbolFetches)
    (s : String) {d1 d2 d3 d4 d5 : IndicatorData} {e10 e20 e50 r k : ℚ}
    (hs : s ∈ parseSymbols symbolsStr)
    (hf : fetch s = ⟨Except.ok d1, Except.ok d2, Except.ok d3, Except.ok d4, Except.ok d5⟩)
    (h1 : getLatestIndicatorValue d1 "Technical Analysis: EMA" = some (JsNum.num e10))
    (h2 : getLatestIndicatorValue d2 "Technical Analysis: EMA" = some (JsNum.num e20))
    (h3 : getLatestIndicatorValue d3 "Technical Analysis: EMA" = some (JsNum.num e50))
    (h4 : getLatestIndicatorValue d4 "Technical Analysis: RSI" = some (JsNum.num r))
    (h5 : getLatestIndicatorValue d5 "Technical Analysis: STOCH" = some (JsNum.num k))
    (havg : (e10 + e20 + e50) / 3 ≠ 0) :
    MatchEntry.mk s (JsNum.num e10) (JsNum.num e20) (JsNum.num e50) (JsNum.num r) (JsNum.num k)
        ∈ (apiScan (some symbolsStr) (some "neutral") fetch).results ↔
      |e10 - (e10 + e20 + e50) / 3| / ((e10 + e20 + e50) / 3) < 1 / 100 ∧
      |e20 - (e10 + e20 + e50) / 3| / ((e10 + e20 + e50) / 3) < 1 / 100 ∧
      |e50 - (e10 + e20 + e50) / 3| / ((e10 + e20 + e50) / 3) < 1 / 100 ∧
      45 ≤ r ∧ r ≤ 65 ∧ 25 ≤ k ∧ k ≤ 75 := by
  have hne : parseSymbols symbolsStr ≠ [] := by
    intro h
    rw [h] at hs
    exact absurd hs (List.not_mem_nil _)
  have hlow : strToLower "neutral" = "neutral" := by decide
  rw [apiScan_results _ _ _ hne, Option.getD_some, mem_scanMatches]
  constructor
  · rintro ⟨u, hu, hpm⟩
    have hsym := (processSymbol_matched _ _ _ _ hpm).1
    have hus : u = s := by simpa using hsym.symm
    subst hus
    rw [processSymbol_ok "neutral" u (fetch u) hf h1 h2 h3 h4 h5] at hpm
    simp only [hlow] at hpm
    simp [evalRule, isNeutralTrend, withinOnePct, havg, jge, jle] at hpm
    simp only [one_div]
    exact ⟨hpm.1, hpm.2.1, hpm.2.2.1, hpm.2.2.2.1, hpm.2.2.2.2.1,
      hpm.2.2.2.2.2.1, hpm.2.2.2.2.2.2⟩
  · rintro ⟨hA, hB, hC, hD, hE, hF, hG⟩
    simp only [one_div] at hA hB hC
    refine ⟨s, hs, ?_⟩
    rw [processSymbol_ok "neutral" s (fetch s) hf h1 h2 h3 h4 h5]
    simp only [hlow]
    simp [evalRule, isNeutralTrend, withinOnePct, havg, jge, jle, hA, hB, hC, hD, hE, hF, hG]

/-- C8 witness: with the three EMAs all equal to 100 (mean 100, each
trivially within one percent of it), rsi 50 and stochK 50, symbol AAA
is matched under the neutral rule. -/
theorem neutral_rule_exact_witness :
    MatchEntry.mk "AAA" (JsNum.num 100) (JsNum.num 100) (JsNum.num 100) (JsNum.num 50)
        (JsNum.num 50) ∈
      (apiScan (some "AAA") (some "neutral") fetchNeutralW).results := by
  exact (@neutral_rule_exact "AAA" fetchNeutralW "AAA"
    (emaData 100) (emaData 100) (emaData 100) (rsiData 50) (stochData 50)
    100 100 100 50 50
    (by decide) rfl (getLatest_emaData 100) (getLatest_emaData 100) (getLatest_emaData 100)
    (getLatest_rsiData 50) (getLatest_stochData 50) (by norm_num)).mpr (by norm_num)

theorem processSymbol_toLower (st u : String) (f : SymbolFetches)
    (hv : validSetup (strToLower st) = true) :
    processSymbol st u f = processSymbol (strToLower st) u f := by
  have hll : strToLower (strToLower st) = strToLower st := by
    unfold validSetup at hv
    simp only [Bool.or_eq_true, decide_eq_true_eq] at hv
    rcases hv with (h | h) | h <;> rw [h] <;> decide
  obtain ⟨f1, f2, f3, f4, f5⟩ := f
  cases f1 <;> cases f2 <;> cases f3 <;> cases f4 <;> cases f5 <;> try rfl
  rename_i d1 d2 d3 d4 d5
  simp only [processSymbol, hll]
  cases getLatestIndicatorValue d1 "Technical Analysis: EMA" <;>
    cases getLatestIndicatorValue d2 "Technical Analysis: EMA" <;>
      cases getLatestIndicatorValue d3 "Technical Analysis: EMA" <;>
        cases getLatestIndicatorValue d4 "Technical Analysis: RSI" <;>
          cases getLatestIndicatorValue d5 "Technical Analysis: STOCH" <;> try rfl
  rename_i v1 v2 v3 v4 v5
  show (match evalRule (strToLower st) v1 v2 v3 v4 v5 with
        | none => SymbolOutcome.errored ⟨"N/A", "Invalid setupType: " ++ st⟩
        | some m =>
          if m then SymbolOutcome.matched ⟨u, v1, v2, v3, v4, v5⟩
          else SymbolOutcome.skipped) =
      (match evalRule (strToLower st) v1 v2 v3 v4 v5 with
        | none => SymbolOutcome.errored ⟨"N/A", "Invalid setupType: " ++ strToLower st⟩
        | some m =>
          if m then SymbolOutcome.matched ⟨u, v1, v2, v3, v4, v5⟩
          else SymbolOutcome.skipped)
  cases hev : evalRule (strToLower st) v1 v2 v3 v4 v5 with
  | none =>
    rw [(evalRule_none_iff _ _ _ _ _ _).mp hev] at hv
    cases hv
  | some m => rfl

/-- C10: the setupType comparison is case-insensitive.  For every
symbols parameter and every setupType string whose lowercase form is a
valid setup name, the scan produces the same matches and errors as the
lowercase form, because the value is lowercased before dispatch. -/
theorem scan_case_insensitive (symbolsQ : Option String) (setup : String)
    (fetch : String → SymbolFetches)
    (hv : strToLower setup = "bullish" ∨ strToLower setup = "bearish" ∨
      strToLower setup = "neutral") :
    (apiScan symbolsQ (some setup) fetch).results =
      (apiScan symbolsQ (some (strToLower setup)) fetch).results ∧
    (apiScan symbolsQ (some setup) fetch).errors =
      (apiScan symbolsQ (some (strToLower setup)) fetch).errors := by
  have hval : validSetup (strToLower setup) = true := by
    rcases hv with h | h | h <;> simp [validSetup, h]
  have hmo : matchOf setup fetch = matchOf (strToLower setup) fetch := by
    funext u
    unfold matchOf
    rw [processSymbol_toLower setup u (fetch u) hval]
  have heo : errorOf setup fetch = errorOf (strToLower setup) fetch := by
    funext u
    unfold errorOf
    rw [processSymbol_toLower setup u (fetch u) hval]
  have hm : ∀ l, scanMatches setup fetch l = scanMatches (strToLower setup) fetch l := by
    intro l
    unfold scanMatches
    rw [hmo]
  have he : ∀ l, scanErrors setup fetch l = scanErrors (strToLower setup) fetch l := by
    intro l
    unfold scanErrors
    rw [heo]
  cases symbolsQ with
  | none => exact ⟨rfl, rfl⟩
  | some s =>
    rcases eq_or_ne s "" with h0 | h0
    · subst h0
      exact ⟨rfl, rfl⟩
    · rcases eq_or_ne (parseSymbols s) [] with hp | hp
      · constructor <;> simp [apiScan, h0, hp]
      · constructor
        · rw [apiScan_results _ _ _ hp, apiScan_results _ _ _ hp,
            Option.getD_some, Option.getD_some, hm]
        · rw [apiScan_errs _ _ _ hp, apiScan_errs _ _ _ hp,
            Option.getD_some, Option.getD_some, he]

/-- C10 witness: scanning with setupType BULLISH produces the same
matches and errors as scanning with bullish. -/
theorem scan_case_insensitive_witness :
    (apiScan (some "AAA") (some "BULLISH") fetchAllGoodW).results =
      (apiScan (some "AAA") (some "bullish") fetchAllGoodW).results ∧
    (apiScan (some "AAA") (some "BULLISH") fetchAllGoodW).errors =
      (apiScan (some "AAA") (some "bullish") fetchAllGoodW).errors := by
  have hl : strToLower "BULLISH" = "bullish" := by decide
  have h := scan_case_insensitive (some "AAA") "BULLISH" fetchAllGoodW (by decide)
  rw [hl] at h
  exact h

/-- C6: GET /api/scan returns 400 with an error body when the symbols
query parameter is absent, and also when the comma-separated value
reduces to the empty list after trimming and dropping empty entries;
in both cases no indicator fetch is attempted - the response does not
depend on the fetch oracle - and no matches or errors are produced. -/
theorem scan_missing_symbols_400 (symbolsQ setupQ : Option String)
    (fetch : String → SymbolFetches)
    (h : symbolsQ = none ∨ ∃ s, symbolsQ = some s ∧ parseSymbols s = []) :
    (apiScan symbolsQ setupQ fetch).status = 400 ∧
    (apiScan symbolsQ setupQ fetch).error.isSome = true ∧
    (apiScan symbolsQ setupQ fetch).results = [] ∧
    (apiScan symbolsQ setupQ fetch).errors = [] ∧
    ∀ fetch2 : String → SymbolFetches,
      apiScan symbolsQ setupQ fetch2 = apiScan symbolsQ setupQ fetch := by
  rcases h with h | ⟨s, hq, hp⟩
  · subst h
    exact ⟨rfl, rfl, rfl, rfl, fun fetch2 => rfl⟩
  · subst hq
    rcases eq_or_ne s "" with h0 | h0
    · subst h0
      exact ⟨rfl, rfl, rfl, rfl, fun fetch2 => rfl⟩
    · refine ⟨?_, ?_, ?_, ?_, ?_⟩ <;> simp [apiScan, h0, hp]

/-- C6 witness: a scan with no symbols parameter and a scan whose
symbols value contains only separators and blanks both return 400. -/
theorem scan_missing_symbols_400_witness :
    (apiScan none (some "bullish") fetchAllGoodW).status = 400 ∧
    (apiScan (some " , ") (some "bullish") fetchAllGoodW).status = 400 := by
  refine ⟨(scan_missing_symbols_400 none (some "bullish") fetchAllGoodW (Or.inl rfl)).1, ?_⟩
  exact (scan_missing_symbols_400 (some " , ") (some "bullish") fetchAllGoodW
    (Or.inr ⟨" , ", rfl, by decide⟩)).1

/-- C3: an exception in any of one symbol's five fetches is caught
inside that symbol's task: the endpoint still answers 200 with the
scanParameters/matches/errors body, the errors list gains exactly the
one entry carrying that symbol and the rejection message, and the
remaining symbols contribute exactly what a scan without the failed
symbol would produce. -/
theorem scan_per_symbol_isolation (symbolsStr setup : String)
    (fetch : String → SymbolFetches) (s m : String)
    (hs : s ∈ parseSymbols symbolsStr)
    (he : firstFetchError (fetch s) = some m) :
    (apiScan (some symbolsStr) (some setup) fetch).status = 200 ∧
    (apiScan (some symbolsStr) (some setup) fetch).error = none ∧
    (apiScan (some symbolsStr) (some setup) fetch).scanParameters =
      some (parseSymbols symbolsStr, setup) ∧
    List.Perm (apiScan (some symbolsStr) (some setup) fetch).results
      (scanMatches setup fetch ((parseSymbols symbolsStr).erase s)) ∧
    List.Perm (apiScan (some symbolsStr) (some setup) fetch).errors
      (⟨s, m⟩ :: scanErrors setup fetch ((parseSymbols symbolsStr).erase s)) := by
  have hne : parseSymbols symbolsStr ≠ [] := by
    intro h
    rw [h] at hs
    exact absurd hs (List.not_mem_nil _)
  have hperm : List.Perm (parseSymbols symbolsStr)
      (s :: (parseSymbols symbolsStr).erase s) := List.perm_cons_erase hs
  have hpe : processSymbol setup s (fetch s) = SymbolOutcome.errored ⟨s, m⟩ :=
    processSymbol_fetch_error setup s (fetch s) m he
  have hmo : matchOf setup fetch s = none := by
    unfold matchOf
    rw [hpe]
  have heo : errorOf setup fetch s = some ⟨s, m⟩ := by
    unfold errorOf
    rw [hpe]
  rw [apiScan_ok _ _ _ hne]
  refine ⟨rfl, rfl, rfl, ?_, ?_⟩
  · have h4 := hperm.filterMap (matchOf setup fetch)
    simp only [List.filterMap_cons, hmo] at h4
    exact h4
  · have h5 := hperm.filterMap (errorOf setup fetch)
    simp only [List.filterMap_cons, heo] at h5
    exact h5

/-- C3 witness: symbol ERR whose first EMA fetch rejects with boom is
recorded once in errors, AAA is still evaluated, and the endpoint
answers 200. -/
theorem scan_per_symbol_isolation_witness :
    (apiScan (some "ERR,AAA") (some "bullish") fetchErrW).status = 200 ∧
    (apiScan (some "ERR,AAA") (some "bullish") fetchErrW).error = none ∧
    (apiScan (some "ERR,AAA") (some "bullish") fetchErrW).scanParameters =
      some (parseSymbols "ERR,AAA", "bullish") ∧
    List.Perm (apiScan (some "ERR,AAA") (some "bullish") fetchErrW).results
      (scanMatches "bullish" fetchErrW ((parseSymbols "ERR,AAA").erase "ERR")) ∧
    List.Perm (apiScan (some "ERR,AAA") (some "bullish") fetchErrW).errors
      (⟨"ERR", "boom"⟩ ::
        scanErrors "bullish" fetchErrW ((parseSymbols "ERR,AAA").erase "ERR")) :=
  scan_per_symbol_isolation "ERR,AAA" "bullish" fetchErrW "ERR" "boom"
    (by decide) (by decide)

theorem processSymbol_null_skip (st sym : String) (f : SymbolFetches)
    {d1 d2 d3 d4 d5 : IndicatorData}
    (hf : f = ⟨Except.ok d1, Except.ok d2, Except.ok d3, Except.ok d4, Except.ok d5⟩)
    (hnull : getLatestIndicatorValue d1 "Technical Analysis: EMA" = none ∨
      getLatestIndicatorValue d2 "Technical Analysis: EMA" = none ∨
      getLatestIndicatorValue d3 "Technical Analysis: EMA" = none ∨
      getLatestIndicatorValue d4 "Technical Analysis: RSI" = none ∨
      getLatestIndicatorValue d5 "Technical Analysis: STOCH" = none) :
    processSymbol st sym f = SymbolOutcome.skipped := by
  subst hf
  simp only [processSymbol]
  cases h1 : getLatestIndicatorValue d1 "Technical Analysis: EMA" <;>
    cases h2 : getLatestIndicatorValue d2 "Technical Analysis: EMA" <;>
      cases h3 : getLatestIndicatorValue d3 "Technical Analysis: EMA" <;>
        cases h4 : getLatestIndicatorValue d4 "Technical Analysis: RSI" <;>
          cases h5 : getLatestIndicatorValue d5 "Technical Analysis: STOCH" <;>
            first
              | rfl
              | simp_all

/-- C4 amended: a scanned symbol with a null extracted value
contributes no entry: its name appears in neither matches nor errors -
except that a symbol literally named N/A can coincide with the
request-level sentinel entry pushed for an unrecognized setupType, so
that collision is excluded - and every symbol name appears in at most
one of matches and errors. -/
theorem null_values_no_entry (symbolsStr setup : String)
    (fetch : String → SymbolFetches) (s : String)
    {d1 d2 d3 d4 d5 : IndicatorData}
    (hs : s ∈ parseSymbols symbolsStr)
    (hf : fetch s = ⟨Except.ok d1, Except.ok d2, Except.ok d3, Except.ok d4, Except.ok d5⟩)
    (hnull : getLatestIndicatorValue d1 "Technical Analysis: EMA" = none ∨
      getLatestIndicatorValue d2 "Technical Analysis: EMA" = none ∨
      getLatestIndicatorValue d3 "Technical Analysis: EMA" = none ∨
      getLatestIndicatorValue d4 "Technical Analysis: RSI" = none ∨
      getLatestIndicatorValue d5 "Technical Analysis: STOCH" = none)
    (hna : s = "N/A" → validSetup (strToLower setup) = true) :
    s ∉ (apiScan (some symbolsStr) (some setup) fetch).results.map MatchEntry.symbol ∧
    s ∉ (apiScan (some symbolsStr) (some setup) fetch).errors.map ScanError.symbol ∧
    ∀ t : String,
      ¬(t ∈ (apiScan (some symbolsStr) (some setup) fetch).results.map MatchEntry.symbol ∧
        t ∈ (apiScan (some symbolsStr) (some setup) fetch).errors.map ScanError.symbol) := by
  have hne : parseSymbols symbolsStr ≠ [] := by
    intro h
    rw [h] at hs
    exact absurd hs (List.not_mem_nil _)
  have hskip : processSymbol setup s (fetch s) = SymbolOutcome.skipped :=
    processSymbol_null_skip setup s (fetch s) hf hnull
  rw [apiScan_results _ _ _ hne, apiScan_errs _ _ _ hne, Option.getD_some]
  refine ⟨?_, ?_, ?_⟩
  · intro hmem
    rw [List.mem_map] at hmem
    obtain ⟨e, heMem, heSym⟩ := hmem
    rw [mem_scanMatches] at heMem
    obtain ⟨u, hu, hpm⟩ := heMem
    have h1 := (processSymbol_matched _ _ _ _ hpm).1
    rw [heSym] at h1
    rw [← h1, hskip] at hpm
    simp at hpm
  · intro hmem
    rw [List.mem_map] at hmem
    obtain ⟨e, heMem, heSym⟩ := hmem
    rw [mem_scanErrors] at heMem
    obtain ⟨u, hu, hpe⟩ := heMem
    rcases processSymbol_errored _ _ _ _ hpe with h1 | ⟨hna2, hval⟩
    · rw [heSym] at h1
      rw [← h1, hskip] at hpe
      simp at hpe
    · rw [heSym] at hna2
      rw [hna hna2] at hval
      cases hval
  · rintro t ⟨htm, hte⟩
    rw [List.mem_map] at htm hte
    obtain ⟨e, heMem, heSym⟩ := htm
    obtain ⟨e2, he2Mem, he2Sym⟩ := hte
    rw [mem_scanMatches] at heMem
    rw [mem_scanErrors] at he2Mem
    obtain ⟨u, hu, hpm⟩ := heMem
    obtain ⟨u2, hu2, hpe⟩ := he2Mem
    have hm1 := processSymbol_matched _ _ _ _ hpm
    rcases processSymbol_errored _ _ _ _ hpe with h1 | ⟨hna2, hval⟩
    · have hut : u = t := by rw [← heSym, hm1.1]
      have hu2t : u2 = t := by rw [← he2Sym, h1]
      rw [hut] at hpm
      rw [hu2t] at hpe
      rw [hpm] at hpe
      simp at hpe
    · rw [hm1.2] at hval
      cases hval

/-- C4 counterexample: with setupType weird, the scanned symbol N/A
has all five fetches succeed and a null rsi extraction, yet N/A
appears in the errors list, through the sentinel entry pushed by the
other symbol's task; the claim as stated is false. -/
theorem null_values_no_entry_counterexample :
    "N/A" ∈ parseSymbols "N/A,AAPL" ∧
    fetchNaW "N/A" = nullRsiFetches ∧
    firstFetchError nullRsiFetches = none ∧
    getLatestIndicatorValue [] "Technical Analysis: RSI" = none ∧
    "N/A" ∈ (apiScan (some "N/A,AAPL") (some "weird") fetchNaW).errors.map
      ScanError.symbol := by
  decide

/-- C4 witness: with a valid setupType, the scanned symbol N/A with a
null rsi extraction appears in neither matches nor errors, and no
symbol appears in both lists. -/
theorem null_values_no_entry_witness :
    "N/A" ∉ (apiScan (some "N/A,AAPL") (some "bullish") fetchNaW).results.map
      MatchEntry.symbol ∧
    "N/A" ∉ (apiScan (some "N/A,AAPL") (some "bullish") fetchNaW).errors.map
      ScanError.symbol ∧
    ∀ t : String,
      ¬(t ∈ (apiScan (some "N/A,AAPL") (some "bullish") fetchNaW).results.map
          MatchEntry.symbol ∧
        t ∈ (apiScan (some "N/A,AAPL") (some "bullish") fetchNaW).errors.map
          ScanError.symbol) :=
  @null_values_no_entry "N/A,AAPL" "bullish" fetchNaW "N/A"
    (emaData 12) (emaData 11) (emaData 10) [] (stochData 70)
    (by decide) rfl (Or.inr (Or.inr (Or.inr (Or.inl rfl)))) (fun _ => by decide)

theorem processSymbol_invalid (setup u : String) (f : SymbolFetches)
    (hinv : validSetup (strToLower setup) = false)
    (hok : firstFetchError f = none) :
    processSymbol setup u f =
      (if extractsComplete f then
        SymbolOutcome.errored ⟨"N/A", "Invalid setupType: " ++ setup⟩
      else SymbolOutcome.skipped) := by
  obtain ⟨d1, d2, d3, d4, d5, hfd⟩ := fetches_ok_of_no_error f hok
  have hev : ∀ a b c d e, evalRule (strToLower setup) a b c d e = none :=
    fun a b c d e => (evalRule_none_iff _ _ _ _ _ _).mpr hinv
  subst hfd
  simp only [processSymbol]
  cases hc : extractsComplete
      ⟨Except.ok d1, Except.ok d2, Except.ok d3, Except.ok d4, Except.ok d5⟩ with
  | true =>
    simp only [extractsComplete, Bool.and_eq_true, Option.isSome_iff_exists] at hc
    obtain ⟨⟨⟨⟨⟨v1, hx1⟩, v2, hx2⟩, v3, hx3⟩, v4, hx4⟩, v5, hx5⟩ := hc
    rw [hx1, hx2, hx3, hx4, hx5]
    simp [hev]
  | false =>
    simp only [extractsComplete] at hc
    cases hx1 : getLatestIndicatorValue d1 "Technical Analysis: EMA" <;>
      cases hx2 : getLatestIndicatorValue d2 "Technical Analysis: EMA" <;>
        cases hx3 : getLatestIndicatorValue d3 "Technical Analysis: EMA" <;>
          cases hx4 : getLatestIndicatorValue d4 "Technical Analysis: RSI" <;>
            cases hx5 : getLatestIndicatorValue d5 "Technical Analysis: STOCH" <;>
              simp_all

/-- C9 amended: when the scan runs with an unrecognized setupType and
every fetch succeeds, the invalid setupType is reported once per
symbol whose five extracted values are non-null - as the sentinel
entry with symbol N/A and the raw setupType in the message - rather
than once per request, and nothing matches. -/
theorem invalid_setupType_errors (symbolsStr setup : String)
    (fetch : String → SymbolFetches)
    (hinv : validSetup (strToLower setup) = false)
    (hok : ∀ u ∈ parseSymbols symbolsStr, firstFetchError (fetch u) = none)
    (hne : parseSymbols symbolsStr ≠ []) :
    (apiScan (some symbolsStr) (some setup) fetch).errors =
      List.replicate
        ((parseSymbols symbolsStr).countP (fun u => extractsComplete (fetch u)))
        ⟨"N/A", "Invalid setupType: " ++ setup⟩ ∧
    (apiScan (some symbolsStr) (some setup) fetch).results = [] := by
  rw [apiScan_results _ _ _ hne, apiScan_errs _ _ _ hne, Option.getD_some]
  constructor
  · unfold scanErrors
    rw [List.filterMap_congr, filterMap_if_replicate (fun u => extractsComplete (fetch u))
      (⟨"N/A", "Invalid setupType: " ++ setup⟩ : ScanError) (parseSymbols symbolsStr)]
    intro u hu
    unfold errorOf
    rw [processSymbol_invalid setup u (fetch u) hinv (hok u hu)]
    cases extractsComplete (fetch u) <;> simp
  · unfold scanMatches
    rw [List.filterMap_eq_nil_iff]
    intro u hu
    unfold matchOf
    rw [processSymbol_invalid setup u (fetch u) hinv (hok u hu)]
    cases extractsComplete (fetch u) <;> simp

/-- C9 witness: scanning two complete symbols with setupType weird
yields the sentinel entry twice and no matches. -/
theorem invalid_setupType_errors_witness :
    (apiScan (some "AAA,BBB") (some "weird") fetchAllGoodW).errors =
      List.replicate
        ((parseSymbols "AAA,BBB").countP (fun u => extractsComplete (fetchAllGoodW u)))
        ⟨"N/A", "Invalid setupType: " ++ "weird"⟩ ∧
    (apiScan (some "AAA,BBB") (some "weird") fetchAllGoodW).results = [] :=
  invalid_setupType_errors "AAA,BBB" "weird" fetchAllGoodW
    (by decide) (by decide) (by decide)

/-- C9 counterexample: with two valid symbols and setupType weird the
invalid setupType is reported twice - once per symbol - not once, so
the claim as stated is false. -/
theorem invalid_setupType_once_counterexample :
    (apiScan (some "AAA,BBB") (some "weird") fetchAllGoodW).errors =
      [⟨"N/A", "Invalid setupType: weird"⟩, ⟨"N/A", "Invalid setupType: weird"⟩] ∧
    (apiScan (some "AAA,BBB") (some "weird") fetchAllGoodW).errors.length = 2 := by
  decide

/-- C2 amended: getLatestIndicatorValue is total (it never throws) and
returns null when no top-level key matches the prefix or when the
matched series is empty; it selects the lexicographically maximal date
key, as on the keys 2024-01-02 and 2024-01-03 where it reads the
record under 2024-01-03; but on an empty field set of the latest
record it returns NaN, not null. -/
theorem getLatestIndicatorValue_spec :
    (∀ (data : IndicatorData) (pfx : String),
      (∀ kv ∈ data, strStartsWith pfx kv.1 = false) →
        getLatestIndicatorValue data pfx = none) ∧
    (∀ (data : IndicatorData) (pfx k : String),
      data.find? (fun kv => strStartsWith pfx kv.1) = some (k, []) →
        getLatestIndicatorValue data pfx = none) ∧
    (∀ (ks : List String) (d : String), latestDateKey ks = some d →
      d ∈ ks ∧ ∀ x ∈ ks, strLt d x = false) ∧
    (getLatestIndicatorValue
        [("Technical Analysis: RSI",
          [("2024-01-02", [("RSI", 41)]), ("2024-01-03", [("RSI", 42)])])]
        "Technical Analysis: RSI" = some (JsNum.num 42)) ∧
    (∀ (data : IndicatorData) (pfx k : String) (ts : TimeSeries) (d : String),
      data.find? (fun kv => strStartsWith pfx kv.1) = some (k, ts) → k ≠ "" →
      latestDateKey (ts.map (fun kv => kv.1)) = some d → d ≠ "" →
      lookupA ts d = some [] →
      getLatestIndicatorValue data pfx = some JsNum.nan) := by
  refine ⟨?_, ?_, ?_, ?_, ?_⟩
  · intro data pfx h
    have hfind : data.find? (fun kv => strStartsWith pfx kv.1) = none := by
      rw [List.find?_eq_none]
      intro kv hkv
      rw [h kv hkv]
      simp
    unfold getLatestIndicatorValue
    rw [hfind]
  · intro data pfx k h
    unfold getLatestIndicatorValue
    rw [h]
    simp [latestDateKey]
  · exact fun ks d h => latestDateKey_max ks d h
  · decide
  · intro data pfx k ts d hfind hk hld hd hlk
    unfold getLatestIndicatorValue
    rw [hfind]
    simp [hk, hld, hd, hlk]

/-- C2 witness: a missing payload key and an empty series both yield
null, and an empty field set of the latest record yields NaN. -/
theorem getLatestIndicatorValue_spec_witness :
    getLatestIndicatorValue [("Meta Data", [("x", [])])] "Technical Analysis: RSI" = none ∧
    getLatestIndicatorValue [("Technical Analysis: RSI", [])] "Technical Analysis: RSI" =
      none ∧
    getLatestIndicatorValue [("Technical Analysis: RSI", [("2024-01-03", [])])]
      "Technical Analysis: RSI" = some JsNum.nan := by
  refine ⟨?_, ?_, ?_⟩
  · exact getLatestIndicatorValue_spec.1 _ _ (by decide)
  · exact getLatestIndicatorValue_spec.2.1 _ _ "Technical Analysis: RSI" (by decide)
  · exact getLatestIndicatorValue_spec.2.2.2.2 _ _ "Technical Analysis: RSI"
      [("2024-01-03", [])] "2024-01-03" (by decide) (by decide) (by decide) (by decide)
      (by decide)

/-- C2 counterexample: on a series whose latest record has an empty
field set, the source returns NaN, not null as the claim states. -/
theorem getLatestIndicatorValue_null_counterexample :
    getLatestIndicatorValue [("Technical Analysis: RSI", [("2024-01-03", [])])]
        "Technical Analysis: RSI" ≠ none ∧
    getLatestIndicatorValue [("Technical Analysis: RSI", [("2024-01-03", [])])]
        "Technical Analysis: RSI" = some JsNum.nan := by
  decide

/-- C5: every Indicator Client fetch operation rejects before issuing
any network call when no credential is configured - the outcome is an
error and does not depend on the provider response at all - rejects
when the response carries a truthy Error Message field or lacks the
expected payload key, and succeeds returning the full response data
when the payload key is present without an Error Message, a truthy
Note advisory being logged rather than treated as failure. -/
theorem client_fetch_contract (op : FetchOp) (apiKey : Option String) (symbol : String)
    (resp : JObj) :
    (keyConfigured apiKey = false →
      isErr (runFetch op apiKey symbol resp).result = true ∧
      ∀ resp2 : JObj, runFetch op apiKey symbol resp2 = runFetch op apiKey symbol resp) ∧
    (keyConfigured apiKey = true → (jget resp "Error Message").truthy = true →
      isErr (runFetch op apiKey symbol resp).result = true) ∧
    (keyConfigured apiKey = true → (jget resp (payloadKeyOf op)).truthy = false →
      isErr (runFetch op apiKey symbol resp).result = true) ∧
    (keyConfigured apiKey = true → symbol ≠ "" →
      (jget resp "Error Message").truthy = false →
      (jget resp (payloadKeyOf op)).truthy = true →
      (runFetch op apiKey symbol resp).result = Except.ok resp ∧
      (runFetch op apiKey symbol resp).loggedNotes =
        (if (jget resp "Note").truthy then [(jget resp "Note").display] else [])) := by
  cases op <;>
    refine ⟨fun hk => ⟨?_, fun resp2 => ?_⟩, fun hk he => ?_, fun hk hp => ?_,
      fun hk hsym he hp => ⟨?_, ?_⟩⟩ <;>
    simp_all [runFetch, fetchDailyTimeSeries, fetchEMA, fetchRSI, fetchStoch,
      fetchIndicator, payloadKeyOf, isErr] <;>
    (try split_ifs) <;>
    simp_all [isErr]

/-- C5 witness: with a configured key, a response carrying both a Note
advisory and the daily payload resolves with the full data and logs
the note; with no key configured the call rejects. -/
theorem client_fetch_contract_witness :
    (runFetch FetchOp.daily (some "demo") "IBM" respW).result = Except.ok respW ∧
    (runFetch FetchOp.daily (some "demo") "IBM" respW).loggedNotes =
      ["Thank you for using Alpha Vantage!"] ∧
    isErr (runFetch FetchOp.daily none "IBM" respW).result = true := by
  have h := (client_fetch_contract FetchOp.daily (some "demo") "IBM" respW).2.2.2
    (by decide) (by decide) (by decide) (by decide)
  refine ⟨h.1, ?_, ?_⟩
  · rw [h.2]
    decide
  · exact ((client_fetch_contract FetchOp.daily none "IBM" respW).1 (by decide)).1
